import Mathlib

/-!
Verification of the OPD visit/queue engine of the Hospital Management System
(`src/utils/file_io.py` and `src/ui/opd_ui.py`).

Records are flat JSON objects with string keys and string values; we embed a
Python dict as an association list in insertion order with unique keys, and
embed each repository and queue operation as an executable Lean function that
follows the Python source line by line.  Python operations that can raise
`KeyError` (subscripting `visit['id']`) are embedded in `Except`.
-/

namespace HMS

/-- A JSON object (Python dict) as an association list of string keys to
string values, kept in insertion order.  Every record this system persists is
a flat string-keyed object. -/
abbrev Rec : Type := List (String × String)

/-- Python `d.get(k)`: the value at key `k`, or `none` when absent.  (Keys of
a Python dict are unique, so first match is the match.) -/
def dget : Rec → String → Option String
  | [], _ => none
  | (k0, v0) :: rest, k => if k0 = k then some v0 else dget rest k

/-- Python `d.get(k, dflt)`. -/
def dgetD (r : Rec) (k dflt : String) : String :=
  (dget r k).getD dflt

/-- Python `d[k] = v`: overwrite the value at key `k` keeping its position,
or append the new key at the end when absent. -/
def dset : Rec → String → String → Rec
  | [], k, v => [(k, v)]
  | (k0, v0) :: rest, k, v =>
    if k0 = k then (k0, v) :: rest else (k0, v0) :: dset rest k v

/-- Python `d.update(u)`: assign each key/value pair of `u` into `d` in
order. -/
def dictUpdate (r : Rec) (u : Rec) : Rec :=
  u.foldl (fun acc kv => dset acc kv.1 kv.2) r

/-- Decimal value of a digit string, most significant digit first (the value
`int(s)` computes for a plain digit string). -/
def digitsVal (l : List Char) : Nat :=
  l.foldl (fun a c => 10 * a + (c.toNat - 48)) 0

/-- Python `int(s)` as used by `FileIOManager.generate_id`: succeeds on the
non-empty all-digit strings that this store's generated IDs carry, returning
their decimal value; any other string raises `ValueError`, which the source
catches and skips (modelled as `none`).  Exotic accepted forms of `int` (signs,
whitespace, underscores) either cannot raise the running maximum above a digit
string's value or do not occur in generated IDs, so they are not modelled. -/
def parseNatDigits (s : String) : Option Nat :=
  if s.data ≠ [] ∧ s.data.all Char.isDigit then some (digitsVal s.data) else none

/-- Python `id_str.startswith(pre)` (character-level prefix test). -/
def strStartsWith (s pre : String) : Bool :=
  pre.data.isPrefixOf s.data

/-- The numeric part extraction of `FileIOManager.generate_id`:
`id_str[len(prefix):]` when the prefix is non-empty and matches, otherwise the
whole string. -/
def numericPart (pre idStr : String) : String :=
  if pre ≠ "" ∧ strStartsWith idStr pre then String.mk (idStr.data.drop pre.data.length)
  else idStr

/-- One step of the `max_id` loop of `FileIOManager.generate_id`: records
without an `id` key and IDs whose numeric part does not parse are skipped. -/
def idContribution (pre : String) (m : Nat) (item : Rec) : Nat :=
  match dget item "id" with
  | none => m
  | some idStr =>
    match parseNatDigits (numericPart pre idStr) with
    | none => m
    | some n => max m n

/-- The `max_id` computed by `FileIOManager.generate_id` over the whole list
(initial value 0). -/
def maxIdNum (data : List Rec) (pre : String) : Nat :=
  data.foldl (idContribution pre) 0

/-- Python `f"{n:03d}"` for a natural number: the decimal representation
left-padded with zeros to at least three characters. -/
def pad3 (n : Nat) : String :=
  if (Nat.repr n).length < 3 then
    String.mk (List.replicate (3 - (Nat.repr n).length) '0') ++ Nat.repr n
  else Nat.repr n

/-- `FileIOManager.generate_id`: `prefix + "001"` on an empty list, otherwise
`prefix` followed by the zero-padded successor of the maximal numeric suffix. -/
def generate_id (data : List Rec) (pre : String) : String :=
  if data.isEmpty then pre ++ "001" else pre ++ pad3 (maxIdNum data pre + 1)

/-- `OPDManager.add_visit`: assign a fresh id, stamp `visit_date` and
`visit_time` with the current date and time, append, and persist.  The first
component is the persisted list, the second the stored record (the caller's
dict, mutated in place by the source). -/
def add_visit (visits : List Rec) (visit : Rec) (today now : String) : List Rec × Rec :=
  let v1 := dset visit "id" (generate_id visits "OPD")
  let v2 := dset v1 "visit_date" today
  let v3 := dset v2 "visit_time" now
  (visits ++ [v3], v3)

/-- `OPDManager.update_visit`: scan for the first record whose `id` equals
`vid`; on a hit merge the supplied fields into it and save, returning the save
result (`true` in this pure embedding) together with the list written to disk;
on a miss return `false` having written nothing (`none`).  Subscripting
`visit['id']` raises `KeyError` on a record without an `id` key. -/
def update_visit : List Rec → String → Rec → Except String (Bool × Option (List Rec))
  | [], _, _ => .ok (false, none)
  | v :: rest, vid, u =>
    match dget v "id" with
    | none => .error "KeyError: id"
    | some i =>
      if i = vid then .ok (true, some (dictUpdate v u :: rest))
      else
        match update_visit rest vid u with
        | .error e => .error e
        | .ok (b, none) => .ok (b, none)
        | .ok (b, some l) => .ok (b, some (v :: l))

/-- `PatientManager.delete_patient` (the repository delete contract): keep the
records whose `id` differs, save the remaining list, and return the save
result (`true` in this pure embedding) whether or not anything was removed.
Subscripting `p['id']` raises `KeyError` on a record without an `id` key. -/
def delete_record : List Rec → String → Except String (Bool × List Rec)
  | [], _ => .ok (true, [])
  | p :: rest, rid =>
    match dget p "id" with
    | none => .error "KeyError: id"
    | some i =>
      match delete_record rest rid with
      | .error e => .error e
      | .ok (b, l) => .ok (b, if i = rid then l else p :: l)

/-- `OPDUI.delete_visit`'s store mutation: keep the visits whose `v.get('id')`
differs from the selected id, then save the remaining list (reported as a
success message whether or not anything was removed). -/
def delete_visit_ui (visits : List Rec) (vid : String) : List Rec :=
  visits.filter (fun v => !(dget v "id" == some vid))

/-! The queue engine (`OPDUI.load_priority_queue`). -/

/-- The `priority_order` dict of `load_priority_queue`:
`{"Emergency": 1, "High": 2, "Normal": 3, "Low": 4}`. -/
def priority_order (p : String) : Option Nat :=
  if p = "Emergency" then some 1
  else if p = "High" then some 2
  else if p = "Normal" then some 3
  else if p = "Low" then some 4
  else none

/-- The first sort-key component,
`priority_order.get(x.get('priority', 'Normal'), 3)`: a missing priority reads
as `"Normal"`, an unknown one falls to the dict-lookup default 3. -/
def priorityRank (v : Rec) : Nat :=
  (priority_order (dgetD v "priority" "Normal")).getD 3

/-- The second sort-key component, `x.get('visit_time', '')`. -/
def timeKey (v : Rec) : String :=
  dgetD v "visit_time" ""

/-- The Python sort key `(priority_rank, visit_time)`: a pair compared
lexicographically, the time part as its character sequence ordered by code
point — exactly Python's string comparison, which on same-day `HH:MM:SS`
strings is chronological order. -/
def qkey (v : Rec) : Nat ×ₗ List Char :=
  toLex (priorityRank v, (timeKey v).data)

/-- Ascending comparison of sort keys: Python's tuple `<=` on
`(priority_rank, visit_time)`. -/
def keyLe (v w : Rec) : Prop :=
  qkey v ≤ qkey w

instance : DecidableRel keyLe :=
  fun v w => inferInstanceAs (Decidable (qkey v ≤ qkey w))

instance : IsTotal Rec keyLe :=
  ⟨fun v w => le_total (qkey v) (qkey w)⟩

instance : IsTrans Rec keyLe :=
  ⟨fun _ _ _ h1 h2 => le_trans h1 h2⟩

/-- The queue filter of `load_priority_queue`:
`v.get('status') == 'Waiting' and v.get('visit_date') == today`. -/
def waitingFilter (visits : List Rec) (today : String) : List Rec :=
  visits.filter (fun v => dget v "status" == some "Waiting" && dget v "visit_date" == some today)

/-- The in-place `waiting_visits.sort(key=...)`: Python's sort is stable and
ascending by key, which is exactly `List.insertionSort` with the reflexive key
comparison `keyLe` (insertion goes before strictly greater keys only, so
earlier elements stay before later ones on equal keys). -/
def sortQueue (l : List Rec) : List Rec :=
  l.insertionSort keyLe

/-- The ordered waiting queue for the day: filter, then stable sort. -/
def waitingSorted (visits : List Rec) (today : String) : List Rec :=
  sortQueue (waitingFilter visits today)

/-- Value of a 1-digit or 2-digit field read by `strptime`. -/
def charVal (c : Char) : Nat :=
  c.toNat - 48

/-- Read one `strptime` numeric field of one or two digits, returning its
value and the rest of the input (greedy, as `strptime`'s `\d{1,2}` is). -/
def readNum2 : List Char → Option (Nat × List Char)
  | [] => none
  | c1 :: rest =>
    if c1.isDigit then
      match rest with
      | c2 :: rest2 =>
        if c2.isDigit then some (10 * charVal c1 + charVal c2, rest2)
        else some (charVal c1, rest)
      | [] => some (charVal c1, [])
    else none

/-- Python `datetime.strptime(f"{today} {t}", "%Y-%m-%d %H:%M:%S")` on the
time portion: `today` is produced by `strftime` and always matches, so the
parse succeeds exactly when `t` is `H:M:S` with one- or two-digit fields in
range (hours 0–23, minutes and seconds 0–59); the result is the number of
seconds since that day's midnight.  Any other string raises `ValueError`
(modelled as `none`). -/
def parseTimeHMS (s : String) : Option Nat :=
  match readNum2 s.data with
  | some (h, ':' :: r1) =>
    (match readNum2 r1 with
     | some (m, ':' :: r2) =>
       (match readNum2 r2 with
        | some (sec, []) =>
          if h < 24 && m < 60 && sec < 60 then some (3600 * h + 60 * m + sec) else none
        | _ => none)
     | _ => none)
  | _ => none

/-- The wait-time display of `load_priority_queue`.  `now` is the current time
as whole seconds since the day's midnight;
`int(wait_time.total_seconds() / 60)` truncates toward zero, which is
`Int.tdiv`.  An empty or unparseable `visit_time` yields `"N/A"` instead of
raising. -/
def waitStr (v : Rec) (now : Int) : String :=
  let vt := dgetD v "visit_time" ""
  if vt = "" then "N/A"
  else
    match parseTimeHMS vt with
    | none => "N/A"
    | some t => toString (Int.tdiv (now - (t : Int)) 60) ++ " min"

/-- One row inserted into the priority-queue tree view. -/
structure Row where
  position : Nat
  patient : String
  priority : String
  complaint : String
  wait : String
  visitId : String
deriving DecidableEq, Repr

/-- The row built for one visit at a given 1-based position: patient display
name (`patient_name`, falling back to `patient_id`, then `""`), priority,
chief complaint truncated to 50 characters plus an ellipsis when longer, the
wait display, and the visit id. -/
def mkRow (pos : Nat) (v : Rec) (now : Int) : Row :=
  { position := pos
    patient := (dget v "patient_name").getD (dgetD v "patient_id" "")
    priority := dgetD v "priority" ""
    complaint :=
      let c := dgetD v "chief_complaint" ""
      if c.length > 50 then c.take 50 ++ "..." else c
    wait := waitStr v now
    visitId := dgetD v "id" "" }

/-- The `enumerate(waiting_visits, 1)` loop: rows with consecutive positions
starting at `pos`. -/
def rowsFrom (pos : Nat) (now : Int) : List Rec → List Row
  | [] => []
  | v :: vs => mkRow pos v now :: rowsFrom (pos + 1) now vs

/-- `OPDUI.load_priority_queue` as a function of the stored visits, the
current date string and the current time of day in seconds: filter to today's
waiting visits, stable-sort by `(priority_rank, visit_time)`, and emit rows
with 1-based positions. -/
def load_priority_queue (visits : List Rec) (today : String) (now : Int) : List Row :=
  rowsFrom 1 now (waitingSorted visits today)

/-- The projection as a store operation: `load_priority_queue` only reads the
store (`get_all_visits`) and writes nothing back, so the store component is
returned unchanged. -/
def loadPriorityQueueOp (s : List Rec) (today : String) (now : Int) :
    List Row × List Rec :=
  (load_priority_queue s today now, s)

/-! The persistence layer reads (`FileIOManager.load_data` and the
repository read operations built on it). -/

/-- A decoded JSON document at top level: either the record array every
`save_data` call writes, or any other decodable JSON value (object, string,
number, boolean, null), which `load_data` returns unchanged despite its
`List` type annotation. -/
inductive JsonDoc : Type
  | arr : List Rec → JsonDoc
  | nonArr : JsonDoc
deriving DecidableEq

/-- The observable states of a backing JSON file, as `load_data`
distinguishes them: absent (the `os.path.exists` test fails); unreadable
(opening or reading raises `IOError`, which is caught); holding bytes that
are not valid UTF-8, where the text-mode read inside `json.load` raises
`UnicodeDecodeError` — a `ValueError`, matched by neither member of the
caught `(json.JSONDecodeError, IOError)` tuple; holding UTF-8 text that is
not valid JSON (`json.JSONDecodeError`, caught); or holding a decodable JSON
document. -/
inductive FileState : Type
  | absent : FileState
  | unreadable : FileState
  | notUtf8 : FileState
  | badJson : FileState
  | stored : JsonDoc → FileState

/-- `FileIOManager.load_data`: an absent file yields `[]`; a caught
`json.JSONDecodeError` or `IOError` is printed and yields `[]`; a file whose
bytes are not valid UTF-8 raises an uncaught `UnicodeDecodeError` that
propagates to the caller; a decodable file yields its document as-is,
whether or not it is an array. -/
def load_data : FileState → Except String JsonDoc
  | .absent => .ok (.arr [])
  | .unreadable => .ok (.arr [])
  | .notUtf8 => .error "UnicodeDecodeError"
  | .badJson => .ok (.arr [])
  | .stored d => .ok d

/-- `OPDManager.get_all_visits`: `load_data` on the visits file. -/
def get_all_visits (fs : FileState) : Except String JsonDoc :=
  load_data fs

/-- `PatientManager.get_all_patients`: `load_data` on the patients file. -/
def get_all_patients (fs : FileState) : Except String JsonDoc :=
  load_data fs

/-- `OPDManager.get_visits_by_patient` on a store whose backing file holds a
record array (the only document `save_data` ever writes): the comprehension
filter over the loaded list.  On a non-array document the comprehension's
behaviour depends on the document (`TypeError` for non-iterables,
`AttributeError` from `v.get` on dict keys or characters) and is not part of
the read contract modelled here. -/
def get_visits_by_patient (visits : List Rec) (pid : String) : List Rec :=
  visits.filter (fun v => dget v "patient_id" == some pid)

/-- `OPDManager.get_todays_visits`, likewise over a loaded record array. -/
def get_todays_visits (visits : List Rec) (today : String) : List Rec :=
  visits.filter (fun v => dget v "visit_date" == some today)

/-! Lemmas about the dict embedding. -/

theorem dget_dset_self (r : Rec) (k v : String) : dget (dset r k v) k = some v := by
  induction r with
  | nil => simp [dset, dget]
  | cons hd tl ih =>
    obtain ⟨k0, v0⟩ := hd
    by_cases h : k0 = k <;> simp [dset, dget, h, ih]

theorem dget_dset_ne (r : Rec) (k v : String) (k' : String) (h : k' ≠ k) :
    dget (dset r k v) k' = dget r k' := by
  have h' : k ≠ k' := Ne.symm h
  induction r with
  | nil => simp [dset, dget, h']
  | cons hd tl ih =>
    obtain ⟨k0, v0⟩ := hd
    by_cases h0 : k0 = k
    · subst h0
      simp [dset, dget, h']
    · by_cases h1 : k0 = k' <;> simp [dset, dget, h0, h1, ih, h]

theorem dget_eq_none_of_not_mem (r : Rec) (k : String) (h : k ∉ r.map Prod.fst) :
    dget r k = none := by
  induction r with
  | nil => rfl
  | cons hd tl ih =>
    obtain ⟨k0, v0⟩ := hd
    simp only [List.map_cons, List.mem_cons, not_or] at h
    have h1 : k0 ≠ k := Ne.symm h.1
    simp [dget, h1, ih h.2]

theorem dget_dictUpdate (r u : Rec) (k : String) (hu : (u.map Prod.fst).Nodup) :
    dget (dictUpdate r u) k = (dget u k).or (dget r k) := by
  induction u generalizing r with
  | nil => simp [dictUpdate, dget]
  | cons hd tl ih =>
    obtain ⟨k0, v0⟩ := hd
    simp only [List.map_cons, List.nodup_cons] at hu
    have step : dictUpdate r ((k0, v0) :: tl) = dictUpdate (dset r k0 v0) tl := rfl
    rw [step, ih (dset r k0 v0) hu.2]
    by_cases h : k0 = k
    · subst h
      rw [dget_eq_none_of_not_mem tl k0 hu.1, dget_dset_self]
      simp [dget]
    · rw [dget_dset_ne r k0 v0 k (fun e => h e.symm)]
      simp [dget, h]

/-! Lemmas about decimal digit strings: `Nat.repr` round-trips through the
digit-string parse used by `generate_id`. -/

theorem toDigitsCore_append (b : Nat) :
    ∀ (fuel n : Nat) (ds : List Char),
      Nat.toDigitsCore b fuel n ds = Nat.toDigitsCore b fuel n [] ++ ds := by
  intro fuel
  induction fuel with
  | zero => intro n ds; simp [Nat.toDigitsCore]
  | succ f ih =>
    intro n ds
    simp only [Nat.toDigitsCore]
    by_cases h : n / b = 0
    · simp [h]
    · simp only [h, if_false]
      rw [ih (n / b) (Nat.digitChar (n % b) :: ds), ih (n / b) [Nat.digitChar (n % b)],
        List.append_assoc]
      rfl

theorem digitChar_toNat (n : Nat) (h : n < 10) : (Nat.digitChar n).toNat - 48 = n := by
  interval_cases n <;> decide

theorem digitChar_isDigit (n : Nat) (h : n < 10) : (Nat.digitChar n).isDigit = true := by
  interval_cases n <;> decide

theorem digitsVal_append_singleton (l : List Char) (c : Char) :
    digitsVal (l ++ [c]) = 10 * digitsVal l + (c.toNat - 48) := by
  simp [digitsVal, List.foldl_append]

theorem toDigitsCore_spec :
    ∀ (fuel n : Nat), n < 10 ^ fuel → 0 < fuel →
      digitsVal (Nat.toDigitsCore 10 fuel n []) = n ∧
      Nat.toDigitsCore 10 fuel n [] ≠ [] ∧
      (Nat.toDigitsCore 10 fuel n []).all Char.isDigit = true := by
  intro fuel
  induction fuel with
  | zero => intro n _ h0; exact absurd h0 (lt_irrefl 0)
  | succ f ih =>
    intro n hn _
    by_cases h : n / 10 = 0
    · have hn10 : n < 10 := (Nat.div_eq_zero_iff (by norm_num)).mp h
      have hmod : n % 10 = n := Nat.mod_eq_of_lt hn10
      have : Nat.toDigitsCore 10 (f + 1) n [] = [Nat.digitChar (n % 10)] := by
        simp [Nat.toDigitsCore, h]
      rw [this, hmod]
      refine ⟨?_, by simp, by simp [digitChar_isDigit n hn10]⟩
      simp [digitsVal, List.foldl, digitChar_toNat n hn10]
    · have hstep : Nat.toDigitsCore 10 (f + 1) n [] =
          Nat.toDigitsCore 10 f (n / 10) [] ++ [Nat.digitChar (n % 10)] := by
        simp only [Nat.toDigitsCore, h, if_false]
        exact toDigitsCore_append 10 f (n / 10) [Nat.digitChar (n % 10)]
      have hdivlt : n / 10 < 10 ^ f := by
        rw [Nat.div_lt_iff_lt_mul (by norm_num : 0 < 10)]
        calc n < 10 ^ (f + 1) := hn
          _ = 10 ^ f * 10 := by ring
      have hfpos : 0 < f := by
        rcases Nat.eq_zero_or_pos f with hf | hf
        · exfalso
          apply h
          subst hf
          norm_num at hn
          exact Nat.div_eq_of_lt hn
        · exact hf
      obtain ⟨hval, hne, hdig⟩ := ih (n / 10) hdivlt hfpos
      rw [hstep]
      refine ⟨?_, by simp, ?_⟩
      · rw [digitsVal_append_singleton, hval,
          digitChar_toNat (n % 10) (Nat.mod_lt n (by norm_num))]
        exact Nat.div_add_mod n 10
      · simp only [List.all_append, hdig, Bool.true_and, List.all_cons, List.all_nil,
          Bool.and_true]
        exact digitChar_isDigit (n % 10) (Nat.mod_lt n (by norm_num))

theorem repr_digits_spec (n : Nat) :
    digitsVal (Nat.repr n).data = n ∧
    (Nat.repr n).data ≠ [] ∧
    (Nat.repr n).data.all Char.isDigit = true := by
  have h : (Nat.repr n).data = Nat.toDigitsCore 10 (n + 1) n [] := rfl
  rw [h]
  exact toDigitsCore_spec (n + 1) n
    (lt_of_lt_of_le (Nat.lt_pow_self (by norm_num) n) (Nat.pow_le_pow_right (by norm_num) n.le_succ))
    n.succ_pos

theorem digitsVal_replicate_zero (k : Nat) (l : List Char) :
    digitsVal (List.replicate k '0' ++ l) = digitsVal l := by
  induction k with
  | zero => rfl
  | succ m ih =>
    simpa [digitsVal, List.replicate, List.foldl] using ih

theorem parse_pad3 (n : Nat) : parseNatDigits (pad3 n) = some n := by
  obtain ⟨hval, hne, hdig⟩ := repr_digits_spec n
  unfold pad3
  by_cases h : (Nat.repr n).length < 3
  · simp only [h, if_true]
    have hdata : (String.mk (List.replicate (3 - (Nat.repr n).length) '0') ++ Nat.repr n).data =
        List.replicate (3 - (Nat.repr n).length) '0' ++ (Nat.repr n).data := rfl
    unfold parseNatDigits
    rw [hdata]
    have hall : (List.replicate (3 - (Nat.repr n).length) '0' ++ (Nat.repr n).data).all
        Char.isDigit = true := by
      simp only [List.all_append, hdig, Bool.and_true]
      refine List.all_eq_true.mpr ?_
      intro c hc
      rw [List.eq_of_mem_replicate hc]
      decide
    have hne2 : List.replicate (3 - (Nat.repr n).length) '0' ++ (Nat.repr n).data ≠ [] := by
      simp [hne]
    simp only [hne2, hall, and_true, ne_eq, not_false_eq_true, if_true]
    rw [digitsVal_replicate_zero, hval]
  · simp only [h, if_false]
    unfold parseNatDigits
    simp only [hne, hdig, and_true, ne_eq, not_false_eq_true, if_true, hval]

/-! Lemmas about id generation and `add_visit`. -/

theorem numericPart_append (pre t : String) (hpre : pre ≠ "") :
    numericPart pre (pre ++ t) = t := by
  have hdata : (pre ++ t).data = pre.data ++ t.data := rfl
  have hsw : strStartsWith (pre ++ t) pre = true := by
    unfold strStartsWith
    rw [hdata]
    exact List.isPrefixOf_iff_prefix.mpr (List.prefix_append pre.data t.data)
  unfold numericPart
  rw [if_pos ⟨hpre, hsw⟩, hdata, List.drop_left]

theorem generate_id_eq (l : List Rec) (pre : String) :
    generate_id l pre = pre ++ pad3 (maxIdNum l pre + 1) := by
  unfold generate_id
  by_cases h : l.isEmpty
  · have hl : l = [] := List.isEmpty_iff.mp h
    subst hl
    have h1 : maxIdNum [] pre = 0 := rfl
    rw [if_pos h, h1]
    exact congrArg (pre ++ ·) (by decide : "001" = pad3 (0 + 1))
  · rw [if_neg h]

theorem add_visit_store (visits : List Rec) (visit : Rec) (d t : String) :
    (add_visit visits visit d t).1 = visits ++ [(add_visit visits visit d t).2] := rfl

theorem add_visit_id (visits : List Rec) (visit : Rec) (d t : String) :
    dget (add_visit visits visit d t).2 "id" = some (generate_id visits "OPD") := by
  show dget (dset (dset (dset visit "id" (generate_id visits "OPD")) "visit_date" d)
      "visit_time" t) "id" = _
  rw [dget_dset_ne _ _ _ _ (by decide), dget_dset_ne _ _ _ _ (by decide), dget_dset_self]

theorem add_visit_date (visits : List Rec) (visit : Rec) (d t : String) :
    dget (add_visit visits visit d t).2 "visit_date" = some d := by
  show dget (dset (dset (dset visit "id" (generate_id visits "OPD")) "visit_date" d)
      "visit_time" t) "visit_date" = _
  rw [dget_dset_ne _ _ _ _ (by decide), dget_dset_self]

theorem add_visit_time (visits : List Rec) (visit : Rec) (d t : String) :
    dget (add_visit visits visit d t).2 "visit_time" = some t := by
  show dget (dset (dset (dset visit "id" (generate_id visits "OPD")) "visit_date" d)
      "visit_time" t) "visit_time" = _
  rw [dget_dset_self]

theorem add_visit_frame (visits : List Rec) (visit : Rec) (d t : String) (k : String)
    (h1 : k ≠ "id") (h2 : k ≠ "visit_date") (h3 : k ≠ "visit_time") :
    dget (add_visit visits visit d t).2 k = dget visit k := by
  show dget (dset (dset (dset visit "id" (generate_id visits "OPD")) "visit_date" d)
      "visit_time" t) k = _
  rw [dget_dset_ne _ _ _ _ h3, dget_dset_ne _ _ _ _ h2, dget_dset_ne _ _ _ _ h1]

theorem maxIdNum_append (l : List Rec) (v : Rec) (pre : String) :
    maxIdNum (l ++ [v]) pre = idContribution pre (maxIdNum l pre) v := by
  unfold maxIdNum
  rw [List.foldl_append]
  rfl

theorem idContribution_stamped (m M : Nat) (v : Rec)
    (hv : dget v "id" = some ("OPD" ++ pad3 M)) :
    idContribution "OPD" m v = max m M := by
  simp only [idContribution, hv, numericPart_append "OPD" (pad3 M) (by decide), parse_pad3]

theorem maxIdNum_add_visit (visits : List Rec) (visit : Rec) (d t : String) :
    maxIdNum (add_visit visits visit d t).1 "OPD" = maxIdNum visits "OPD" + 1 := by
  rw [add_visit_store, maxIdNum_append,
    idContribution_stamped (maxIdNum visits "OPD") (maxIdNum visits "OPD" + 1) _
      (by rw [add_visit_id, generate_id_eq])]
  exact max_eq_right (Nat.le_succ _)

/-! Lemmas about the stable sort of the queue engine. -/

theorem filter_orderedInsert_qkey (k : Nat ×ₗ List Char) (a : Rec) (l : List Rec) :
    (List.orderedInsert keyLe a l).filter (fun v => decide (qkey v = k)) =
      if qkey a = k then a :: l.filter (fun v => decide (qkey v = k))
      else l.filter (fun v => decide (qkey v = k)) := by
  induction l with
  | nil => by_cases h : qkey a = k <;> simp [List.orderedInsert, h]
  | cons b bs ih =>
    by_cases hle : keyLe a b
    · simp only [List.orderedInsert, if_pos hle]
      by_cases h : qkey a = k <;> simp [List.filter_cons, h]
    · have hlt : qkey b < qkey a := lt_of_not_le hle
      simp only [List.orderedInsert, if_neg hle]
      by_cases h : qkey a = k
      · have hbk : qkey b ≠ k := by rw [← h]; exact ne_of_lt hlt
        simp [List.filter_cons, hbk, ih, h]
      · by_cases hb : qkey b = k <;> simp [List.filter_cons, hb, ih, h]

theorem insertionSort_filter_qkey (k : Nat ×ₗ List Char) :
    ∀ l : List Rec,
      (List.insertionSort keyLe l).filter (fun v => decide (qkey v = k)) =
        l.filter (fun v => decide (qkey v = k))
  | [] => rfl
  | a :: l => by
    simp only [List.insertionSort]
    rw [filter_orderedInsert_qkey k a (List.insertionSort keyLe l)]
    by_cases h : qkey a = k <;>
      simp [List.filter_cons, h, insertionSort_filter_qkey k l]

theorem rowsFrom_map_position (now : Int) :
    ∀ (l : List Rec) (pos : Nat),
      (rowsFrom pos now l).map Row.position = List.range' pos l.length
  | [], _ => rfl
  | v :: vs, pos => by
    simp [rowsFrom, mkRow, rowsFrom_map_position now vs (pos + 1), List.range'_succ]

/-! The claims. -/

/-- The queue-ordering example of the spec: visits with priorities
[Normal, Emergency, High, Emergency] and times [09:00, 09:05, 08:50, 08:40],
all dated the same day and Waiting, in storage (check-in) order. -/
def c1Visits : List Rec :=
  [ [("id", "OPD001"), ("priority", "Normal"), ("visit_time", "09:00"),
     ("status", "Waiting"), ("visit_date", "2027-03-01"), ("chief_complaint", "a")]
  , [("id", "OPD002"), ("priority", "Emergency"), ("visit_time", "09:05"),
     ("status", "Waiting"), ("visit_date", "2027-03-01"), ("chief_complaint", "b")]
  , [("id", "OPD003"), ("priority", "High"), ("visit_time", "08:50"),
     ("status", "Waiting"), ("visit_date", "2027-03-01"), ("chief_complaint", "c")]
  , [("id", "OPD004"), ("priority", "Emergency"), ("visit_time", "08:40"),
     ("status", "Waiting"), ("visit_date", "2027-03-01"), ("chief_complaint", "d")] ]

/-- C1: the priority-queue projection orders the visits that pass the filter
(status Waiting, visit_date equal to today) ascending by the pair
(priority rank, visit_time) — Emergency 1, High 2, Normal 3, Low 4, unknown or
missing priority 3, times compared lexicographically — with ties on equal
(rank, time) preserving original storage order (equal-key sublists of the
output and of the filtered input coincide), rows carrying 1-based positions,
and in particular the spec's four-visit example produces the order
Emergency@08:40, Emergency@09:05, High@08:50, Normal@09:00. -/
theorem c1_priority_queue_ordering :
    (∀ (visits : List Rec) (today : String) (now : Int),
      (waitingSorted visits today).Pairwise keyLe ∧
      (waitingSorted visits today).Perm (waitingFilter visits today) ∧
      (∀ k : Nat ×ₗ List Char,
        (waitingSorted visits today).filter (fun v => decide (qkey v = k)) =
          (waitingFilter visits today).filter (fun v => decide (qkey v = k))) ∧
      (∀ v w : Rec, keyLe v w ↔
        (priorityRank v < priorityRank w ∨
          (priorityRank v = priorityRank w ∧ (timeKey v).data ≤ (timeKey w).data))) ∧
      (load_priority_queue visits today now).map Row.position =
        List.range' 1 (waitingFilter visits today).length) ∧
    (load_priority_queue c1Visits "2027-03-01" 40000).map (fun r => (r.priority, r.visitId)) =
      [("Emergency", "OPD004"), ("Emergency", "OPD002"),
       ("High", "OPD003"), ("Normal", "OPD001")] := by
  refine ⟨fun visits today now => ⟨?_, ?_, ?_, ?_, ?_⟩, by decide⟩
  · exact List.sorted_insertionSort keyLe (waitingFilter visits today)
  · exact List.perm_insertionSort keyLe (waitingFilter visits today)
  · exact fun k => insertionSort_filter_qkey k (waitingFilter visits today)
  · exact fun v w => Prod.Lex.le_iff (priorityRank v, (timeKey v).data)
      (priorityRank w, (timeKey w).data)
  · rw [show load_priority_queue visits today now =
        rowsFrom 1 now (waitingSorted visits today) from rfl,
      rowsFrom_map_position]
    exact congrArg (List.range' 1)
      (List.Perm.length_eq (List.perm_insertionSort keyLe (waitingFilter visits today)))

/-- C5: a visit whose status is not Waiting or whose visit_date is not today
never appears in the ordered queue underlying the projection, regardless of
its priority. -/
theorem c5_nonwaiting_excluded (visits : List Rec) (today : String) (v : Rec)
    (h : dget v "status" ≠ some "Waiting" ∨ dget v "visit_date" ≠ some today) :
    v ∉ waitingSorted visits today := by
  intro hmem
  have hmemf : v ∈ waitingFilter visits today :=
    (List.perm_insertionSort keyLe (waitingFilter visits today)).mem_iff.mp hmem
  have hf := List.of_mem_filter hmemf
  simp only [Bool.and_eq_true, beq_iff_eq] at hf
  rcases h with h | h
  · exact h hf.1
  · exact h hf.2

/-- Witness for C5 at a concrete input: a Completed visit dated today is not
in the queue even with Emergency priority. -/
theorem c5_nonwaiting_excluded_witness :
    ([("id", "OPD009"), ("status", "Completed"), ("visit_date", "2027-03-01"),
      ("priority", "Emergency")] : Rec) ∉
      waitingSorted
        [[("id", "OPD009"), ("status", "Completed"), ("visit_date", "2027-03-01"),
          ("priority", "Emergency")]] "2027-03-01" :=
  c5_nonwaiting_excluded _ _ _ (Or.inl (by decide))

/-- C8: the queue projection is a pure read: it leaves the store unchanged,
and calling it twice in a row on the same store with the same clock yields an
identical ordered row sequence. -/
theorem c8_projection_pure (s : List Rec) (today : String) (now : Int) :
    (loadPriorityQueueOp s today now).2 = s ∧
    (loadPriorityQueueOp (loadPriorityQueueOp s today now).2 today now).1 =
      (loadPriorityQueueOp s today now).1 :=
  ⟨rfl, rfl⟩

/-- Counterexample to C10 as stated: the `except` clause of `load_data`
catches only `json.JSONDecodeError` and `IOError`, so a backing file whose
bytes are not valid UTF-8 (for example crash-truncated multibyte text) makes
the read raise an uncaught `UnicodeDecodeError` instead of returning the
empty list, and that exception propagates through `get_all_visits`; a
decodable non-array document is likewise returned as-is, not as a record
list. -/
theorem c10_counterexample :
    load_data FileState.notUtf8 = Except.error "UnicodeDecodeError" ∧
    load_data FileState.notUtf8 ≠ Except.ok (JsonDoc.arr []) ∧
    get_all_visits FileState.notUtf8 = Except.error "UnicodeDecodeError" ∧
    get_all_patients (FileState.stored JsonDoc.nonArr) = Except.ok JsonDoc.nonArr ∧
    JsonDoc.nonArr ≠ JsonDoc.arr [] := by
  refine ⟨rfl, fun h => Except.noConfusion h, rfl, rfl, fun h => JsonDoc.noConfusion h⟩

/-- C10 as amended: `load_data` returns the empty list rather than raising
when the backing file is absent, unreadable (`IOError`), or holds UTF-8 text
that is not valid JSON (`json.JSONDecodeError`); but a file whose bytes are
not valid UTF-8 raises an uncaught `UnicodeDecodeError` that propagates to
the caller, and a decodable non-array document is returned as-is rather than
as a record list.  `get_all_visits` and `get_all_patients` are `load_data` on
their files, and on a store holding a record array — the only document
`save_data` ever writes — the filters built on them return lists without
raising. -/
theorem c10_load_behavior (fs : FileState) (pid today : String) (l : List Rec) :
    load_data FileState.absent = Except.ok (JsonDoc.arr []) ∧
    load_data FileState.unreadable = Except.ok (JsonDoc.arr []) ∧
    load_data FileState.badJson = Except.ok (JsonDoc.arr []) ∧
    load_data FileState.notUtf8 = Except.error "UnicodeDecodeError" ∧
    load_data (FileState.stored (JsonDoc.arr l)) = Except.ok (JsonDoc.arr l) ∧
    load_data (FileState.stored JsonDoc.nonArr) = Except.ok JsonDoc.nonArr ∧
    get_all_visits fs = load_data fs ∧
    get_all_patients fs = load_data fs ∧
    get_visits_by_patient l pid = l.filter (fun v => dget v "patient_id" == some pid) ∧
    get_todays_visits l today = l.filter (fun v => dget v "visit_date" == some today) :=
  ⟨rfl, rfl, rfl, rfl, rfl, rfl, rfl, rfl, rfl, rfl⟩

/-- C3: `add_visit` assigns the id `OPD` followed by the zero-padded successor
of the current maximum numeric suffix (`OPD001` on an empty store), stamps
`visit_date` and `visit_time` with the current date and time, appends the
record at the end, persists the full list, and the stored record keeps every
other field of the input record. -/
theorem c3_add_visit (visits : List Rec) (visit : Rec) (today now : String) :
    (add_visit visits visit today now).1 = visits ++ [(add_visit visits visit today now).2] ∧
    dget (add_visit visits visit today now).2 "id" =
      some ("OPD" ++ pad3 (maxIdNum visits "OPD" + 1)) ∧
    generate_id [] "OPD" = "OPD001" ∧
    dget (add_visit visits visit today now).2 "visit_date" = some today ∧
    dget (add_visit visits visit today now).2 "visit_time" = some now ∧
    (∀ k, k ≠ "id" → k ≠ "visit_date" → k ≠ "visit_time" →
      dget (add_visit visits visit today now).2 k = dget visit k) := by
  refine ⟨add_visit_store visits visit today now, ?_, rfl,
    add_visit_date visits visit today now, add_visit_time visits visit today now,
    fun k h1 h2 h3 => add_visit_frame visits visit today now k h1 h2 h3⟩
  rw [add_visit_id, generate_id_eq]

/-- Witness for C3 at a concrete input: adding to the empty store yields id
`OPD001` and preserves the chief complaint. -/
theorem c3_add_visit_witness :
    (add_visit [] [("chief_complaint", "fever")] "2027-03-01" "09:00:00").1 =
      [] ++ [(add_visit [] [("chief_complaint", "fever")] "2027-03-01" "09:00:00").2] ∧
    dget (add_visit [] [("chief_complaint", "fever")] "2027-03-01" "09:00:00").2
      "chief_complaint" = some "fever" := by
  have h := c3_add_visit [] [("chief_complaint", "fever")] "2027-03-01" "09:00:00"
  exact ⟨h.1, h.2.2.2.2.2 "chief_complaint" (by decide) (by decide) (by decide)⟩

/-- The record checked in repeatedly in the C2 run. -/
def c2Rec : Rec := [("chief_complaint", "checkup")]

/-- One check-in step of the C2 run. -/
def c2Step (s : List Rec) : List Rec :=
  (add_visit s c2Rec "2027-03-01" "09:00:00").1

/-- The store after three adds: visits OPD001, OPD002, OPD003. -/
def c2Store3 : List Rec := c2Step (c2Step (c2Step []))

/-- Counterexample to C2 as stated: after adding OPD001–OPD003 and deleting
OPD003, the next add reuses the id OPD003 (it does not yield OPD004), because
`generate_id` takes the maximum over the records currently present. -/
theorem c2_counterexample :
    c2Store3.map (fun v => dget v "id") =
      [some "OPD001", some "OPD002", some "OPD003"] ∧
    delete_record c2Store3 "OPD003" =
      .ok (true, c2Store3.filter (fun v => !(dget v "id" == some "OPD003"))) ∧
    dget (add_visit (c2Store3.filter (fun v => !(dget v "id" == some "OPD003")))
      c2Rec "2027-03-01" "09:05:00").2 "id" = some "OPD003" ∧
    some "OPD003" ≠ some "OPD004" := by
  refine ⟨by decide, rfl, by decide, by decide⟩

/-- C2 as amended: each add assigns `OPD` plus the zero-padded successor of
the maximum numeric suffix among the records currently stored, so ids are
strictly increasing across consecutive adds (suffixes M+1 then M+2 with no
intervening delete); but after deleting the record bearing the maximal
suffix, the next add reuses that id — from a store holding OPD001 and OPD002
the next add yields OPD003 again. -/
theorem c2_amended (visits : List Rec) (r1 r2 : Rec) (d1 t1 d2 t2 : String) :
    dget (add_visit visits r1 d1 t1).2 "id" =
      some ("OPD" ++ pad3 (maxIdNum visits "OPD" + 1)) ∧
    maxIdNum (add_visit visits r1 d1 t1).1 "OPD" = maxIdNum visits "OPD" + 1 ∧
    dget (add_visit (add_visit visits r1 d1 t1).1 r2 d2 t2).2 "id" =
      some ("OPD" ++ pad3 (maxIdNum visits "OPD" + 2)) ∧
    maxIdNum visits "OPD" + 1 < maxIdNum visits "OPD" + 2 ∧
    dget (add_visit [[("id", "OPD001")], [("id", "OPD002")]] r2 d2 t2).2 "id" =
      some "OPD003" := by
  refine ⟨?_, maxIdNum_add_visit visits r1 d1 t1, ?_, Nat.lt_succ_self _, ?_⟩
  · rw [add_visit_id, generate_id_eq]
  · rw [add_visit_id, generate_id_eq, maxIdNum_add_visit]
  · rw [add_visit_id]
    decide

/-- C4: updating a non-existent id returns `false` and performs no write at
all (the matching loop falls through without calling `save_data`), provided
every stored record carries an `id` field (true of every record the
repository itself creates; a record without one would raise `KeyError`
instead). -/
theorem c4_update_missing_id (visits : List Rec) (vid : String) (u : Rec)
    (h : ∀ v ∈ visits, (dget v "id").isSome ∧ dget v "id" ≠ some vid) :
    update_visit visits vid u = .ok (false, none) := by
  induction visits with
  | nil => rfl
  | cons v rest ih =>
    obtain ⟨hs, hn⟩ := h v (List.mem_cons_self v rest)
    obtain ⟨i, hi⟩ := Option.isSome_iff_exists.mp hs
    have hne : i ≠ vid := fun e => hn (e ▸ hi)
    have ih2 := ih (fun w hw => h w (List.mem_cons_of_mem v hw))
    simp [update_visit, hi, hne, ih2]

/-- Witness for C4 at a concrete input: updating `OPD999` in a store holding
only `OPD001` returns `false` with no write. -/
theorem c4_update_missing_id_witness :
    update_visit [[("id", "OPD001"), ("status", "Waiting")]] "OPD999"
      [("status", "Completed")] = .ok (false, none) :=
  c4_update_missing_id _ _ _ (by decide)

/-- The scan of `update_visit` hits the first record whose id matches: the
merged record replaces it in place and everything else is untouched. -/
theorem update_visit_found :
    ∀ (pre post : List Rec) (r u : Rec) (vid : String),
      (∀ v ∈ pre, (dget v "id").isSome ∧ dget v "id" ≠ some vid) →
      dget r "id" = some vid →
      update_visit (pre ++ r :: post) vid u =
        .ok (true, some (pre ++ dictUpdate r u :: post))
  | [], post, r, u, vid, _, hr => by simp [update_visit, hr]
  | v :: rest, post, r, u, vid, hpre, hr => by
    obtain ⟨hs, hn⟩ := hpre v (List.mem_cons_self v rest)
    obtain ⟨i, hi⟩ := Option.isSome_iff_exists.mp hs
    have hne : i ≠ vid := fun e => hn (e ▸ hi)
    have ih := update_visit_found rest post r u vid
      (fun w hw => hpre w (List.mem_cons_of_mem v hw)) hr
    simp [update_visit, hi, hne, ih]

/-- C9: when a record with the requested id is present, `update_visit`
shallow-merges the supplied fields into the first such record only: supplied
keys overwrite its values, unsupplied keys keep their prior values, and the
records before and after it, the list length, and the order are unchanged. -/
theorem c9_update_first_match (pre post : List Rec) (r u : Rec) (vid : String)
    (hpre : ∀ v ∈ pre, (dget v "id").isSome ∧ dget v "id" ≠ some vid)
    (hr : dget r "id" = some vid)
    (hu : (u.map Prod.fst).Nodup) :
    update_visit (pre ++ r :: post) vid u =
      .ok (true, some (pre ++ dictUpdate r u :: post)) ∧
    (pre ++ dictUpdate r u :: post).length = (pre ++ r :: post).length ∧
    (∀ k val, dget u k = some val → dget (dictUpdate r u) k = some val) ∧
    (∀ k, dget u k = none → dget (dictUpdate r u) k = dget r k) := by
  refine ⟨update_visit_found pre post r u vid hpre hr, by simp, ?_, ?_⟩
  · intro k val hk
    rw [dget_dictUpdate r u k hu, hk]
    rfl
  · intro k hk
    rw [dget_dictUpdate r u k hu, hk]
    rfl

/-- Witness for C9 at a concrete input: updating the status of `OPD002`
merges into that record only and leaves `OPD001` as it was. -/
theorem c9_update_first_match_witness :
    update_visit ([[("id", "OPD001"), ("status", "Waiting")]] ++
        [("id", "OPD002"), ("status", "Waiting")] :: []) "OPD002"
        [("status", "Completed")] =
      .ok (true, some ([[("id", "OPD001"), ("status", "Waiting")]] ++
        dictUpdate [("id", "OPD002"), ("status", "Waiting")]
          [("status", "Completed")] :: [])) :=
  (c9_update_first_match [[("id", "OPD001"), ("status", "Waiting")]] []
    [("id", "OPD002"), ("status", "Waiting")] [("status", "Completed")] "OPD002"
    (by decide) (by decide) (by decide)).1

/-- The repository delete keeps exactly the records with a different id and
returns the save result. -/
theorem delete_record_eq :
    ∀ (visits : List Rec) (rid : String),
      (∀ v ∈ visits, (dget v "id").isSome) →
      delete_record visits rid =
        .ok (true, visits.filter (fun v => !(dget v "id" == some rid)))
  | [], _, _ => rfl
  | v :: rest, rid, h => by
    obtain ⟨i, hi⟩ := Option.isSome_iff_exists.mp (h v (List.mem_cons_self v rest))
    have ih := delete_record_eq rest rid (fun w hw => h w (List.mem_cons_of_mem v hw))
    by_cases he : i = rid
    · simp [delete_record, hi, ih, List.filter_cons, he]
    · simp [delete_record, hi, ih, List.filter_cons, he]

/-- Counterexample to C7 as stated: deleting an id that is absent from the
store returns `true` (the result of the unconditional save), not `false`. -/
theorem c7_counterexample :
    delete_record [[("id", "OPD001")]] "OPD999" = .ok (true, [[("id", "OPD001")]]) ∧
    (∀ l : List Rec, delete_record [[("id", "OPD001")]] "OPD999" ≠ .ok (false, l)) := by
  refine ⟨rfl, fun l h => ?_⟩
  rw [show delete_record [[("id", "OPD001")]] "OPD999" =
      .ok (true, [[("id", "OPD001")]]) from rfl] at h
  simp at h

/-- C7 as amended: delete removes every record bearing the given id and
persists the remaining list; its return value is the save result (`true` on a
successful write) whether or not a record with that id was present, and when
none is present the persisted contents are unchanged (a no-op on record
contents).  The UI delete path filters the store the same way. -/
theorem c7_delete (visits : List Rec) (rid : String)
    (h : ∀ v ∈ visits, (dget v "id").isSome) :
    delete_record visits rid =
      .ok (true, visits.filter (fun v => !(dget v "id" == some rid))) ∧
    ((∀ v ∈ visits, dget v "id" ≠ some rid) →
      visits.filter (fun v => !(dget v "id" == some rid)) = visits) ∧
    delete_visit_ui visits rid = visits.filter (fun v => !(dget v "id" == some rid)) := by
  refine ⟨delete_record_eq visits rid h, ?_, rfl⟩
  intro hall
  refine List.filter_eq_self.mpr ?_
  intro v hv
  simp [hall v hv]

/-- Witness for C7 at a concrete input: deleting `OPD001` removes it and
persists the remaining record. -/
theorem c7_delete_witness :
    delete_record [[("id", "OPD001")], [("id", "OPD002")]] "OPD001" =
      .ok (true, ([[("id", "OPD001")], [("id", "OPD002")]] : List Rec).filter
        (fun v => !(dget v "id" == some "OPD001"))) :=
  (c7_delete [[("id", "OPD001")], [("id", "OPD002")]] "OPD001" (by decide)).1

/-- A Waiting visit dated today whose check-in time, 00:10:00, lies after the
clock reading used by the refresh (00:00:30): the displayed wait is the
truncation -9, not the floor -10. -/
def c6Visit : Rec :=
  [("id", "OPD001"), ("patient_id", "PAT001"), ("status", "Waiting"),
   ("visit_date", "2027-03-01"), ("priority", "Normal"),
   ("visit_time", "00:10:00"), ("chief_complaint", "x")]

/-- Counterexample to C6 as stated: `int()` truncates toward zero, not toward
minus infinity, so for a queued visit whose parsed check-in time lies 570
seconds in the future the code displays `-9 min` while
`floor((now - checkin)/60)` is -10. -/
theorem c6_counterexample :
    (load_priority_queue [c6Visit] "2027-03-01" 30).map Row.wait = ["-9 min"] ∧
    Int.fdiv (30 - 600) 60 = -10 ∧
    toString (Int.fdiv (30 - 600) 60) ++ " min" = "-10 min" ∧
    ("-9 min" : String) ≠ "-10 min" := by
  refine ⟨by decide, by decide, by decide, by decide⟩

/-- C6 as amended: for a queued visit with a parseable `visit_time` the
displayed wait is the truncation toward zero of
`(now - checkin_seconds) / 60` minutes — which equals the floor whenever the
check-in time is not in the future, and is exactly `15 min` for a visit
checked in exactly 15 minutes ago — while a missing or unparseable
`visit_time` displays `"N/A"` instead of raising. -/
theorem c6_wait_display (v : Rec) (now : Int) :
    (∀ t : Nat, parseTimeHMS (dgetD v "visit_time" "") = some t →
      waitStr v now = toString (Int.tdiv (now - (t : Int)) 60) ++ " min" ∧
      ((t : Int) ≤ now → Int.tdiv (now - (t : Int)) 60 = Int.fdiv (now - (t : Int)) 60) ∧
      (now = (t : Int) + 900 → waitStr v now = "15 min")) ∧
    (dgetD v "visit_time" "" = "" → waitStr v now = "N/A") ∧
    (parseTimeHMS (dgetD v "visit_time" "") = none → waitStr v now = "N/A") := by
  refine ⟨?_, ?_, ?_⟩
  · intro t ht
    have hne : dgetD v "visit_time" "" ≠ "" := by
      intro he
      rw [he] at ht
      exact Option.noConfusion ht
    have hdisp : waitStr v now = toString (Int.tdiv (now - (t : Int)) 60) ++ " min" := by
      unfold waitStr
      rw [if_neg hne, ht]
    refine ⟨hdisp, ?_, ?_⟩
    · intro hle
      exact (Int.fdiv_eq_tdiv (by omega) (by norm_num)).symm
    · intro hnow
      rw [hdisp, hnow]
      have h900 : (t : Int) + 900 - (t : Int) = 900 := by ring
      rw [h900]
      decide
  · intro he
    unfold waitStr
    rw [if_pos he]
  · intro hn
    unfold waitStr
    by_cases he : dgetD v "visit_time" "" = ""
    · rw [if_pos he]
    · rw [if_neg he, hn]

/-- Witness for C6 at a concrete input: a visit checked in at 09:00:00 shows
a wait of exactly 15 minutes at 09:15:00 (33300 seconds). -/
theorem c6_wait_display_witness :
    waitStr [("visit_time", "09:00:00")] 33300 = "15 min" :=
  ((c6_wait_display [("visit_time", "09:00:00")] 33300).1 32400 (by decide)).2.2 (by decide)

end HMS
